import Mathlib

/-!
Verification development for a Grey-Wolf-Optimizer VRP solver.

The definitions below are shallow embeddings of the Python source:
* decoding of random-key vectors into routes (backend/app/gwo_optimizer.py,
  decode_random_keys; identical code in frontend/src/gwo_vrp.py),
* the route fitness evaluator (fitness_from_routes, euclidean),
* the GWO search loop (GreyWolfOptimizer.optimize) with its seeded random
  stream modelled as an explicit function from draw counter to value and the
  cooperative cancellation flag modelled as an oracle giving the value the
  flag is observed to have at the top of each iteration,
* the job lifecycle layer (backend/app/job_manager.py) as explicit state
  passing over an association-list state.

Real-valued quantities are modelled over the rationals (the reals for the
distance terms, which involve square roots); machine floating point is not
modelled bit-for-bit, only the arithmetic structure of the computation.
-/

namespace GWOVRP

/-! ## Random-key decoding (decode_random_keys) -/

/-- Model of numpy argsort on the key vector: the indices 0..n-1 sorted by
ascending key value; ties are resolved toward the lower index (the stable
choice; the repository calls argsort with its default sort kind). -/
def argsort (x : List ℚ) : List ℕ :=
  List.insertionSort
    (fun i j => x.getD i 0 < x.getD j 0 ∨ (x.getD i 0 = x.getD j 0 ∧ i ≤ j))
    (List.range x.length)

/-- The loop of decode_random_keys: walk the sorted customer order, greedily
appending each customer to the current route while its demand fits, otherwise
closing the current route and opening a new one with that customer. -/
def decodeLoop (depot : ℕ) (demands : List ℤ) (cap : ℤ) :
    List ℕ → List ℕ → ℤ → List (List ℕ)
  | [], cur, _ => [cur ++ [depot]]
  | idx :: rest, cur, load =>
    if load + demands.getD (idx + 1) 0 ≤ cap then
      decodeLoop depot demands cap rest (cur ++ [idx + 1])
        (load + demands.getD (idx + 1) 0)
    else
      (cur ++ [depot]) ::
        decodeLoop depot demands cap rest [depot, idx + 1]
          (demands.getD (idx + 1) 0)

/-- decode_random_keys(x, depot_index, coords, demands, vehicle_capacity):
decode a random-key vector to a list of routes.  The coords argument is
unused by the decoding itself, as in the source (only its length is bound to
an otherwise unused local). -/
def decode_random_keys (x : List ℚ) (depot : ℕ) (_coords : List (ℚ × ℚ))
    (demands : List ℤ) (cap : ℤ) : List (List ℕ) :=
  decodeLoop depot demands cap (argsort x) [depot] 0

/-- The customers visited by a route: the stops with the leading and trailing
depot entry removed. -/
def middle (r : List ℕ) : List ℕ := (r.drop 1).dropLast

/-! ## Fitness evaluator (euclidean, fitness_from_routes) -/

/-- euclidean(a, b) = hypot(a0 - b0, a1 - b1). -/
noncomputable def euclidean (a b : ℚ × ℚ) : ℝ :=
  Real.sqrt (((a.1 : ℝ) - (b.1 : ℝ)) ^ 2 + ((a.2 : ℝ) - (b.2 : ℝ)) ^ 2)

/-- The distance summed over the consecutive legs of one route, as in the
inner loop of fitness_from_routes. -/
noncomputable def routeDistance (coords : List (ℚ × ℚ)) (r : List ℕ) : ℝ :=
  ((r.zip (r.drop 1)).map
    (fun p => euclidean (coords.getD p.1 (0, 0)) (coords.getD p.2 (0, 0)))).sum

/-- The load of a route: the demands summed over its non-depot stops
(the source compares against the literal index 0). -/
def routeLoad (demands : List ℤ) (r : List ℕ) : ℤ :=
  ((r.filter (fun c => c ≠ 0)).map (fun c => demands.getD c 0)).sum

/-- fitness_from_routes: total distance over all routes plus, per route, a
penalty of penalty_coeff times the excess load whenever the route load
strictly exceeds the vehicle capacity. -/
noncomputable def fitness_from_routes (routes : List (List ℕ))
    (coords : List (ℚ × ℚ)) (demands : List ℤ) (cap : ℤ) (coeff : ℝ) : ℝ :=
  ((routes.map (routeDistance coords)).sum)
    + ((routes.map (fun r =>
        if cap < routeLoad demands r then
          coeff * ((routeLoad demands r : ℝ) - (cap : ℝ))
        else 0)).sum)

/-- The penalty the specification prescribes for one route:
penalty_coefficient times max(0, route_load minus capacity). -/
noncomputable def specRoutePenalty (demands : List ℤ) (cap : ℤ) (coeff : ℝ)
    (r : List ℕ) : ℝ :=
  coeff * max 0 ((routeLoad demands r : ℝ) - (cap : ℝ))

/-! ## GreyWolfOptimizer.optimize

The seeded generator rng = default_rng(seed) is modelled as a stream
g : draw counter to value in the unit interval; each call that draws m values
consumes the next m positions of the stream, so a fixed seed determines the
whole stream.  The cooperative cancellation flag is modelled by an oracle
cancelled t : the value the flag is observed to have when the loop polls it
at the top of iteration t. -/

structure GWOConfig where
  dim : ℕ
  lb : List ℚ
  ub : List ℚ
  pop : ℕ
  maxIter : ℕ
deriving Repr, DecidableEq

/-- One value of rng.uniform(lb, ub): lb + (ub - lb) times a unit draw. -/
def uniformDraw (g : ℕ → ℚ) (lo hi : ℚ) (k : ℕ) : ℚ :=
  lo + (hi - lo) * g k

/-- _init_population: pop rows of dim uniform draws from [lb, ub]. -/
def initPopulation (g : ℕ → ℚ) (cfg : GWOConfig) : List (List ℚ) :=
  (List.range cfg.pop).map (fun i =>
    (List.range cfg.dim).map (fun j =>
      uniformDraw g (cfg.lb.getD j 0) (cfg.ub.getD j 0) (i * cfg.dim + j)))

/-- Sorting the (fitness, position) pairs ascending by fitness: the model of
computing fitness, argsorting it and permuting X and fitness by that order. -/
def sortByFitness (pairs : List (ℚ × List ℚ)) : List (ℚ × List ℚ) :=
  List.insertionSort (fun p q => p.1 ≤ q.1) pairs

/-- np.clip into [lo, hi]. -/
def clip (lo hi v : ℚ) : ℚ := min (max v lo) hi

/-- The pull of one leader on wolf Xi: draw r1 and r2 (dim values each,
starting at stream position k), A = 2 a r1 - a, C = 2 r2,
D = |C leader - Xi|, component = leader - A D. -/
def leaderPull (g : ℕ → ℚ) (a : ℚ) (dim : ℕ) (leader Xi : List ℚ) (k : ℕ) :
    List ℚ :=
  (List.range dim).map (fun j =>
    leader.getD j 0
      - (2 * a * g (k + j) - a)
        * |2 * g (k + dim + j) * leader.getD j 0 - Xi.getD j 0|)

/-- One wolf's position update: the mean of the three leader pulls, clipped
per dimension into [lb, ub].  Consumes 6 dim stream values from position k. -/
def updateWolf (g : ℕ → ℚ) (cfg : GWOConfig) (a : ℚ)
    (alpha beta delta Xi : List ℚ) (k : ℕ) : List ℚ :=
  (List.range cfg.dim).map (fun j =>
    clip (cfg.lb.getD j 0) (cfg.ub.getD j 0)
      (((leaderPull g a cfg.dim alpha Xi k).getD j 0
        + (leaderPull g a cfg.dim beta Xi (k + 2 * cfg.dim)).getD j 0
        + (leaderPull g a cfg.dim delta Xi (k + 4 * cfg.dim)).getD j 0) / 3))

structure GWOState where
  X : List (List ℚ)
  alpha : List ℚ
  alphaFit : ℚ
  beta : List ℚ
  betaFit : ℚ
  delta : List ℚ
  deltaFit : ℚ
  history : List (ℕ × ℚ)
  ctr : ℕ
deriving Repr, DecidableEq

/-- The population after iteration t's full position update (the loop over
wolves; a = 2 (1 - t / max_iter), each wolf consumes 6 dim draws). -/
def iterPop (g : ℕ → ℚ) (cfg : GWOConfig) (t : ℕ) (s : GWOState) :
    List (List ℚ) :=
  (List.range cfg.pop).map (fun i =>
    updateWolf g cfg (2 * (1 - (t : ℚ) / (cfg.maxIter : ℚ)))
      s.alpha s.beta s.delta (s.X.getD i []) (s.ctr + i * (6 * cfg.dim)))

/-- The (fitness, position) pairs of iteration t's updated population, sorted
ascending by fitness. -/
def iterSorted (g : ℕ → ℚ) (cfg : GWOConfig) (obj : List ℚ → ℚ) (t : ℕ)
    (s : GWOState) : List (ℚ × List ℚ) :=
  sortByFitness ((iterPop g cfg t s).map (fun r => (obj r, r)))

/-- One full iteration of the optimize loop: population update, fitness
re-evaluation and re-sort, conditional alpha update, unconditional beta and
delta refresh, and the history append of (t, alpha fitness). -/
def stepIter (g : ℕ → ℚ) (cfg : GWOConfig) (obj : List ℚ → ℚ) (t : ℕ)
    (s : GWOState) : GWOState :=
  { X := (iterSorted g cfg obj t s).map Prod.snd
    alpha := if ((iterSorted g cfg obj t s).getD 0 (0, [])).1 < s.alphaFit
      then ((iterSorted g cfg obj t s).getD 0 (0, [])).2 else s.alpha
    alphaFit := if ((iterSorted g cfg obj t s).getD 0 (0, [])).1 < s.alphaFit
      then ((iterSorted g cfg obj t s).getD 0 (0, [])).1 else s.alphaFit
    beta := ((iterSorted g cfg obj t s).getD 1 (0, [])).2
    betaFit := ((iterSorted g cfg obj t s).getD 1 (0, [])).1
    delta := ((iterSorted g cfg obj t s).getD 2 (0, [])).2
    deltaFit := ((iterSorted g cfg obj t s).getD 2 (0, [])).1
    history := s.history ++
      [(t, if ((iterSorted g cfg obj t s).getD 0 (0, [])).1 < s.alphaFit
        then ((iterSorted g cfg obj t s).getD 0 (0, [])).1 else s.alphaFit)]
    ctr := s.ctr + cfg.pop * (6 * cfg.dim) }

/-- The for-loop of optimize: rem iterations remain, t is the next iteration
index; the cancellation flag is polled at the top of each iteration and a set
flag breaks out before that iteration's population update begins. -/
def runFrom (g : ℕ → ℚ) (cfg : GWOConfig) (obj : List ℚ → ℚ)
    (cancelled : ℕ → Bool) : ℕ → ℕ → GWOState → GWOState
  | 0, _, s => s
  | rem + 1, t, s =>
    if cancelled t then s
    else runFrom g cfg obj cancelled rem (t + 1) (stepIter g cfg obj t s)

/-- The state before the loop: initial population evaluated and sorted, the
three best taken as the leaders, history seeded with (0, alpha fitness), and
pop times dim stream values consumed. -/
def initState (g : ℕ → ℚ) (cfg : GWOConfig) (obj : List ℚ → ℚ) : GWOState :=
  { X := (sortByFitness ((initPopulation g cfg).map (fun r => (obj r, r)))).map
      Prod.snd
    alpha := ((sortByFitness ((initPopulation g cfg).map
      (fun r => (obj r, r)))).getD 0 (0, [])).2
    alphaFit := ((sortByFitness ((initPopulation g cfg).map
      (fun r => (obj r, r)))).getD 0 (0, [])).1
    beta := ((sortByFitness ((initPopulation g cfg).map
      (fun r => (obj r, r)))).getD 1 (0, [])).2
    betaFit := ((sortByFitness ((initPopulation g cfg).map
      (fun r => (obj r, r)))).getD 1 (0, [])).1
    delta := ((sortByFitness ((initPopulation g cfg).map
      (fun r => (obj r, r)))).getD 2 (0, [])).2
    deltaFit := ((sortByFitness ((initPopulation g cfg).map
      (fun r => (obj r, r)))).getD 2 (0, [])).1
    history := [(0, ((sortByFitness ((initPopulation g cfg).map
      (fun r => (obj r, r)))).getD 0 (0, [])).1)]
    ctr := cfg.pop * cfg.dim }

/-- GreyWolfOptimizer.optimize: initialization followed by up to max_iter
iterations; returns the final state (alpha, alpha fitness, history). -/
def optimize (g : ℕ → ℚ) (cfg : GWOConfig) (obj : List ℚ → ℚ)
    (cancelled : ℕ → Bool) : GWOState :=
  runFrom g cfg obj cancelled cfg.maxIter 1 (initState g cfg obj)

/-- optimize including the two failure points that precede the loop, in
source order: the population-wide fitness evaluation (numpy apply_along_axis
raises a ValueError when the iterated dimension, the population, is empty)
and then the leader initialization (X[1] and X[2] are indexed right after the
initial sort, so one or two rows raise an index error there).  Both failures
occur before any iteration runs. -/
def optimizeChecked (g : ℕ → ℚ) (cfg : GWOConfig) (obj : List ℚ → ℚ)
    (cancelled : ℕ → Bool) : Except String GWOState :=
  if (initPopulation g cfg).isEmpty then
    .error ("cannot apply_along_axis when any iteration dimensions are 0")
  else
    match sortByFitness ((initPopulation g cfg).map (fun r => (obj r, r))) with
    | _ :: _ :: _ :: _ => .ok (optimize g cfg obj cancelled)
    | _ => .error ("index out of bounds")

/-- The numWolves bound enforced by the API configuration model
(OptimizationConfig: ge=5, le=200). -/
def numWolvesValid (w : ℕ) : Prop := 5 ≤ w ∧ w ≤ 200

instance (w : ℕ) : Decidable (numWolvesValid w) := by
  unfold numWolvesValid
  infer_instance

/-- The loop with the cancellation flag never set: k full iterations starting
at iteration index t. -/
def runNoCancel (g : ℕ → ℚ) (cfg : GWOConfig) (obj : List ℚ → ℚ) :
    ℕ → ℕ → GWOState → GWOState
  | 0, _, s => s
  | k + 1, t, s => runNoCancel g cfg obj k (t + 1) (stepIter g cfg obj t s)

/-- Loop invariant: the fitness column of the history is non-increasing and
the current alpha fitness is at or below the last recorded entry. -/
def HistInv (s : GWOState) : Prop :=
  List.Chain' (fun a b => b ≤ a) (s.history.map Prod.snd) ∧
  ∀ q ∈ (s.history.map Prod.snd).getLast?, s.alphaFit ≤ q

/-! ## Job lifecycle (job_manager.py)

The persisted database, the active-job registry and the stored results are
modelled as association lists inside one state record; the runner objects of
the registry are reduced to their cancellation flag.  Raising an exception is
modelled by returning the unchanged state together with an error value. -/

inductive JobStatus where
  | pending
  | running
  | completed
  | failed
  | cancelled
deriving DecidableEq, Repr

structure JobRec where
  datasetId : ℕ
  status : JobStatus
deriving DecidableEq, Repr

structure JMState where
  jobs : List (ℕ × JobRec)
  datasets : List ℕ
  registry : List (ℕ × Bool)
  results : List (ℕ × ℕ)
deriving DecidableEq, Repr

def lookupA {α : Type} (l : List (ℕ × α)) (k : ℕ) : Option α :=
  (l.find? (fun p => p.1 == k)).map Prod.snd

def setA {α : Type} (l : List (ℕ × α)) (k : ℕ) (v : α) : List (ℕ × α) :=
  l.map (fun p => if p.1 == k then (k, v) else p)

def putA {α : Type} (l : List (ℕ × α)) (k : ℕ) (v : α) : List (ℕ × α) :=
  (k, v) :: l.filter (fun p => !(p.1 == k))

/-- db.update_job_status: set the persisted status of a job. -/
def updateStatus (st : JMState) (j : ℕ) (s : JobStatus) : JMState :=
  { st with jobs :=
      st.jobs.map (fun p =>
        if p.1 == j then (p.1, { p.2 with status := s }) else p) }

/-- db.save_job_result. -/
def putResult (st : JMState) (j : ℕ) (res : ℕ) : JMState :=
  { st with results := putA st.results j res }

/-- Insert a freshly created runner (cancellation flag down) into the
active-job registry. -/
def registryInsert (st : JMState) (j : ℕ) : JMState :=
  { st with registry := putA st.registry j false }

/-- The unconditional registry cleanup at the end of JobRunner.run. -/
def registryRemove (st : JMState) (j : ℕ) : JMState :=
  { st with registry := st.registry.filter (fun p => !(p.1 == j)) }

/-- runner.cancel(): set the registered runner's cancellation flag; nothing
else changes. -/
def registryCancel (st : JMState) (j : ℕ) : JMState :=
  { st with registry := setA st.registry j true }

inductive JMError where
  | jobNotFound (j : ℕ)
  | datasetNotFound (d : ℕ)
  | jobNotPending (j : ℕ) (status : JobStatus)
  | cancelledNoResult
deriving DecidableEq, Repr

/-- The tail of JobRunner.run after the optimizer returns: a runner that
observes its cancellation flag set marks the job Cancelled and returns no
result; otherwise the result is saved and the job marked Completed. -/
def runnerFinish (cancelled : Bool) (st : JMState) (j : ℕ) (res : ℕ) :
    JMState × Option ℕ :=
  if cancelled then (updateStatus st j JobStatus.cancelled, none)
  else (updateStatus (putResult st j res) j JobStatus.completed, some res)

/-- JobRunner.run: mark Running, run the optimizer (its result value is the
parameter res, whether the flag was observed set at the end is the parameter
cancelledAtEnd), finish, and unconditionally drop the registry entry. -/
def runnerRun (st : JMState) (j : ℕ) (cancelledAtEnd : Bool) (res : ℕ) :
    JMState × Option ℕ :=
  (registryRemove
      (runnerFinish cancelledAtEnd (updateStatus st j JobStatus.running) j
        res).1 j,
   (runnerFinish cancelledAtEnd (updateStatus st j JobStatus.running) j
     res).2)

/-- start_job: look the job up, refuse unless it is Pending, check the
dataset, then register a runner and submit it to the worker pool.  The
returned triple is (state after the call, outcome, worker submitted). -/
def start_job (st : JMState) (j : ℕ) : JMState × Except JMError Unit × Bool :=
  match lookupA st.jobs j with
  | none => (st, .error (.jobNotFound j), false)
  | some job =>
    if job.status = JobStatus.pending then
      if job.datasetId ∈ st.datasets then
        (registryInsert st j, .ok (), true)
      else (st, .error (.datasetNotFound job.datasetId), false)
    else (st, .error (.jobNotPending j job.status), false)

/-- The shared body of run_job_sync once the stored-result short cut did not
fire: dataset check, registry insert, synchronous runner execution.  The
third component records whether the optimizer was actually executed. -/
def runBody (st : JMState) (j : ℕ) (job : JobRec) (cancelled : Bool)
    (res : ℕ) : JMState × Except JMError ℕ × Bool :=
  if job.datasetId ∈ st.datasets then
    match runnerRun (registryInsert st j) j cancelled res with
    | (st2, some r) => (st2, .ok r, true)
    | (st2, none) => (st2, .error .cancelledNoResult, true)
  else (st, .error (.datasetNotFound job.datasetId), false)

/-- run_job_sync: return the stored result for a Completed job that has one;
in every other case (including Failed and Cancelled statuses) fall through
and execute the job synchronously. -/
def run_job_sync (st : JMState) (j : ℕ) (cancelled : Bool) (res : ℕ) :
    JMState × Except JMError ℕ × Bool :=
  match lookupA st.jobs j with
  | none => (st, .error (.jobNotFound j), false)
  | some job =>
    match
      (if job.status = JobStatus.completed then lookupA st.results j
       else none) with
    | some r => (st, .ok r, false)
    | none => runBody st j job cancelled res

/-- cancel_job: if the job is in the active registry set the runner's flag
and succeed; otherwise, if the persisted status is Pending or Running, mark
the job Cancelled directly and succeed; otherwise fail and change nothing. -/
def cancel_job (st : JMState) (j : ℕ) : Bool × JMState :=
  match lookupA st.registry j with
  | some _ => (true, registryCancel st j)
  | none =>
    match lookupA st.jobs j with
    | some job =>
      if job.status = JobStatus.pending ∨ job.status = JobStatus.running then
        (true, updateStatus st j JobStatus.cancelled)
      else (false, st)
    | none => (false, st)

/-! ## Concrete states and inputs used by witnesses and counterexamples -/

/-- A state holding one Running job, used as a witness input. -/
def stRunning : JMState :=
  { jobs := [(1, { datasetId := 0, status := JobStatus.running })]
    datasets := [0], registry := [], results := [] }

/-- A state whose registry holds job 3, used as a witness input. -/
def stActive : JMState :=
  { jobs := [(3, { datasetId := 0, status := JobStatus.running })]
    datasets := [0], registry := [(3, false)], results := [] }

/-- A state holding one Failed job with its dataset present, used to show
that run_job_sync re-executes it. -/
def stFailed : JMState :=
  { jobs := [(5, { datasetId := 0, status := JobStatus.failed })]
    datasets := [0], registry := [], results := [] }

/-- A state holding one Completed job with a stored result. -/
def stCompleted : JMState :=
  { jobs := [(7, { datasetId := 0, status := JobStatus.completed })]
    datasets := [0], registry := [], results := [(7, 42)] }

/-- A tiny optimizer configuration used by witnesses. -/
def cfgSmall : GWOConfig :=
  { dim := 1, lb := [0], ub := [1], pop := 3, maxIter := 3 }

/-- A configuration whose population is below three. -/
def cfgTiny : GWOConfig :=
  { dim := 1, lb := [0], ub := [1], pop := 2, maxIter := 1 }

/-- A configuration with an empty population. -/
def cfgEmpty : GWOConfig :=
  { dim := 1, lb := [0], ub := [1], pop := 0, maxIter := 1 }

/-- The constant-zero random stream used by witnesses. -/
def gZero : ℕ → ℚ := fun _ => 0

/-- The constant-zero objective used by witnesses. -/
def objZero : List ℚ → ℚ := fun _ => 0

/-- A cancellation oracle that reads false at iteration 1 and true from
iteration 2 on (the flag is raised during iteration 1). -/
def cancelAt2 : ℕ → Bool := fun u => decide (2 ≤ u)

/-! ## Theorems -/

theorem getLast?_sandwich {α : Type} (b : α) :
    ∀ (l : List α) (a : α), (a :: (l ++ [b])).getLast? = some b := by
  intro l
  induction l with
  | nil => intro a; rfl
  | cons c l ih =>
      intro a
      rw [List.cons_append, List.getLast?_cons_cons]
      exact ih c

theorem getLast?_concat_eq {α : Type} (l : List α) (b : α) :
    (l ++ [b]).getLast? = some b := by
  cases l with
  | nil => rfl
  | cons a l => exact getLast?_sandwich b l a

theorem decodeLoop_spec (depot : ℕ) (demands : List ℤ) (cap : ℤ) :
    ∀ (os cs : List ℕ) (load : ℤ),
      (((decodeLoop depot demands cap os (depot :: cs) load).map
          middle).flatten = cs ++ os.map (· + 1)) ∧
      ∀ r ∈ decodeLoop depot demands cap os (depot :: cs) load,
        r.head? = some depot ∧ r.getLast? = some depot := by
  intro os
  induction os with
  | nil =>
      intro cs load
      constructor
      · simp [decodeLoop, middle]
      · intro r hr
        simp only [decodeLoop, List.mem_singleton] at hr
        subst hr
        exact ⟨rfl, getLast?_sandwich depot cs depot⟩
  | cons idx rest ih =>
      intro cs load
      by_cases h : load + demands.getD (idx + 1) 0 ≤ cap
      · have hrw : decodeLoop depot demands cap (idx :: rest) (depot :: cs)
            load
            = decodeLoop depot demands cap rest (depot :: (cs ++ [idx + 1]))
                (load + demands.getD (idx + 1) 0) := by
          rw [decodeLoop, if_pos h, List.cons_append]
        rw [hrw]
        obtain ⟨h1, h2⟩ := ih (cs ++ [idx + 1]) (load + demands.getD (idx + 1) 0)
        refine ⟨?_, h2⟩
        rw [h1]
        simp
      · have hrw : decodeLoop depot demands cap (idx :: rest) (depot :: cs)
            load
            = ((depot :: cs) ++ [depot]) ::
                decodeLoop depot demands cap rest (depot :: [idx + 1])
                  (demands.getD (idx + 1) 0) := by
          rw [decodeLoop, if_neg h]
        rw [hrw]
        obtain ⟨h1, h2⟩ := ih [idx + 1] (demands.getD (idx + 1) 0)
        constructor
        · simp only [List.map_cons, List.flatten_cons, h1]
          simp [middle]
        · intro r hr
          rcases List.mem_cons.mp hr with hr | hr
          · subst hr
            refine ⟨rfl, ?_⟩
            rw [List.cons_append]
            exact getLast?_sandwich depot cs depot
          · exact h2 r hr

theorem argsort_perm (x : List ℚ) : (argsort x).Perm (List.range x.length) :=
  List.perm_insertionSort _ _

/-- C1: for every key vector, demand list and capacity, the decoded route-set
partitions the customers 1..n (each appears in exactly one route) and every
route begins and ends at the depot index. -/
theorem decode_random_keys_partition (x : List ℚ) (depot : ℕ)
    (coords : List (ℚ × ℚ)) (demands : List ℤ) (cap : ℤ) :
    (((decode_random_keys x depot coords demands cap).map
        middle).flatten).Perm ((List.range x.length).map (· + 1)) ∧
    ∀ r ∈ decode_random_keys x depot coords demands cap,
      r.head? = some depot ∧ r.getLast? = some depot := by
  obtain ⟨h1, h2⟩ := decodeLoop_spec depot demands cap (argsort x) [] 0
  constructor
  · have heq : (((decode_random_keys x depot coords demands cap).map
        middle).flatten) = (argsort x).map (· + 1) := by
      simpa [decode_random_keys] using h1
    rw [heq]
    exact (argsort_perm x).map _
  · exact h2

/-- C4: fitness_from_routes equals the sum of Euclidean leg distances plus the
per-route penalty coeff times max(0, load minus capacity); when no route
exceeds capacity it equals the plain distance sum with zero penalty. -/
theorem fitness_from_routes_spec (routes : List (List ℕ))
    (coords : List (ℚ × ℚ)) (demands : List ℤ) (cap : ℤ) (coeff : ℝ) :
    fitness_from_routes routes coords demands cap coeff
      = (routes.map (routeDistance coords)).sum
          + (routes.map (specRoutePenalty demands cap coeff)).sum ∧
    ((∀ r ∈ routes, routeLoad demands r ≤ cap) →
      fitness_from_routes routes coords demands cap coeff
        = (routes.map (routeDistance coords)).sum) := by
  have hpt : ∀ r : List ℕ,
      (if cap < routeLoad demands r then
        coeff * ((routeLoad demands r : ℝ) - (cap : ℝ))
      else 0) = specRoutePenalty demands cap coeff r := by
    intro r
    by_cases h : cap < routeLoad demands r
    · rw [if_pos h]
      unfold specRoutePenalty
      rw [max_eq_right]
      have : (cap : ℝ) < (routeLoad demands r : ℝ) := by exact_mod_cast h
      linarith
    · rw [if_neg h]
      unfold specRoutePenalty
      rw [max_eq_left]
      · ring
      · push_neg at h
        have : (routeLoad demands r : ℝ) ≤ (cap : ℝ) := by exact_mod_cast h
        linarith
  constructor
  · unfold fitness_from_routes
    congr 1
    exact congrArg List.sum (List.map_congr_left (fun r _ => hpt r))
  · intro hok
    unfold fitness_from_routes
    have hz : (routes.map (fun r =>
        if cap < routeLoad demands r then
          coeff * ((routeLoad demands r : ℝ) - (cap : ℝ))
        else 0)).sum = 0 := by
      apply List.sum_eq_zero
      intro x hx
      obtain ⟨r, hr, hrx⟩ := List.mem_map.mp hx
      rw [← hrx, if_neg (not_lt.mpr (hok r hr))]
    rw [hz, add_zero]

/-- Witness for C4 at a concrete violation-free route-set. -/
theorem fitness_from_routes_spec_witness :
    (∀ r ∈ [[0, 1, 0], [0, 2, 0]], routeLoad [0, 5, 7] r ≤ (10 : ℤ)) ∧
    fitness_from_routes [[0, 1, 0], [0, 2, 0]] [(0, 0), (3, 4), (1, 0)]
        [0, 5, 7] 10 1000
      = (([[0, 1, 0], [0, 2, 0]] : List (List ℕ)).map
          (routeDistance [(0, 0), (3, 4), (1, 0)])).sum :=
  ⟨by decide,
   (fitness_from_routes_spec [[0, 1, 0], [0, 2, 0]] [(0, 0), (3, 4), (1, 0)]
      [0, 5, 7] 10 1000).2 (by decide)⟩

/-- C2: with the random stream fixed by an explicit seed, two independent
runs of optimize with identical configuration, objective and cancellation
observations yield identical convergence histories, final alpha vectors and
alpha fitnesses.  In the embedding every source of randomness is routed
through the seeded stream, so equal seeds give equal streams and the two runs
coincide componentwise. -/
theorem optimize_deterministic (g1 g2 : ℕ → ℚ) (cfg : GWOConfig)
    (obj : List ℚ → ℚ) (c : ℕ → Bool) (hg : g1 = g2) :
    (optimize g1 cfg obj c).history = (optimize g2 cfg obj c).history ∧
    (optimize g1 cfg obj c).alpha = (optimize g2 cfg obj c).alpha ∧
    (optimize g1 cfg obj c).alphaFit = (optimize g2 cfg obj c).alphaFit := by
  subst hg
  exact ⟨rfl, rfl, rfl⟩

/-- Witness for C2 at a concrete seed stream and configuration. -/
theorem optimize_deterministic_witness :
    gZero = gZero ∧
    (optimize gZero cfgSmall objZero (fun _ => false)).history
      = (optimize gZero cfgSmall objZero (fun _ => false)).history ∧
    (optimize gZero cfgSmall objZero (fun _ => false)).alpha
      = (optimize gZero cfgSmall objZero (fun _ => false)).alpha ∧
    (optimize gZero cfgSmall objZero (fun _ => false)).alphaFit
      = (optimize gZero cfgSmall objZero (fun _ => false)).alphaFit :=
  ⟨rfl, optimize_deterministic gZero gZero cfgSmall objZero (fun _ => false)
    rfl⟩

theorem stepIter_alphaFit_le (g : ℕ → ℚ) (cfg : GWOConfig)
    (obj : List ℚ → ℚ) (t : ℕ) (s : GWOState) :
    (stepIter g cfg obj t s).alphaFit ≤ s.alphaFit := by
  unfold stepIter
  dsimp only
  split
  · exact le_of_lt (by assumption)
  · exact le_rfl

theorem stepIter_history (g : ℕ → ℚ) (cfg : GWOConfig) (obj : List ℚ → ℚ)
    (t : ℕ) (s : GWOState) :
    (stepIter g cfg obj t s).history
      = s.history ++ [(t, (stepIter g cfg obj t s).alphaFit)] := rfl

theorem stepIter_histInv (g : ℕ → ℚ) (cfg : GWOConfig) (obj : List ℚ → ℚ)
    (t : ℕ) (s : GWOState) (h : HistInv s) :
    HistInv (stepIter g cfg obj t s) := by
  obtain ⟨hchain, hlast⟩ := h
  have hle := stepIter_alphaFit_le g cfg obj t s
  constructor
  · rw [stepIter_history, List.map_append, List.chain'_append]
    refine ⟨hchain, List.chain'_singleton _, ?_⟩
    intro x hx y hy
    simp only [List.map_cons, List.map_nil, List.head?_cons,
      Option.mem_def, Option.some.injEq] at hy
    subst hy
    exact le_trans hle (hlast x hx)
  · intro q hq
    rw [stepIter_history, List.map_append] at hq
    simp only [List.map_cons, List.map_nil] at hq
    rw [getLast?_concat_eq] at hq
    simp only [Option.mem_def, Option.some.injEq] at hq
    subst hq
    exact le_rfl

theorem runFrom_histInv (g : ℕ → ℚ) (cfg : GWOConfig) (obj : List ℚ → ℚ)
    (c : ℕ → Bool) :
    ∀ (rem t : ℕ) (s : GWOState), HistInv s →
      HistInv (runFrom g cfg obj c rem t s) := by
  intro rem
  induction rem with
  | zero => intro t s h; exact h
  | succ rem ih =>
      intro t s h
      rw [runFrom]
      split
      · exact h
      · exact ih (t + 1) (stepIter g cfg obj t s) (stepIter_histInv g cfg obj t s h)

theorem initState_histInv (g : ℕ → ℚ) (cfg : GWOConfig)
    (obj : List ℚ → ℚ) : HistInv (initState g cfg obj) := by
  constructor
  · exact List.chain'_singleton _
  · intro q hq
    simp only [initState, List.map_cons, List.map_nil, List.getLast?_singleton,
      Option.mem_def, Option.some.injEq] at hq
    subst hq
    exact le_rfl

/-- C3: in every run of optimize the fitness column of the convergence
history is non-increasing; the alpha fitness of an iteration is updated only
when the head of the iteration's fitness-sorted population is strictly
smaller, while beta and delta are unconditionally refreshed from that sorted
population's second and third entries. -/
theorem optimize_history_monotone (g : ℕ → ℚ) (cfg : GWOConfig)
    (obj : List ℚ → ℚ) (c : ℕ → Bool) :
    List.Chain' (fun a b : ℚ => b ≤ a)
      ((optimize g cfg obj c).history.map Prod.snd) ∧
    ∀ (t : ℕ) (s : GWOState),
      ((stepIter g cfg obj t s).alphaFit
        = if ((iterSorted g cfg obj t s).getD 0 (0, [])).1 < s.alphaFit
          then ((iterSorted g cfg obj t s).getD 0 (0, [])).1
          else s.alphaFit) ∧
      (stepIter g cfg obj t s).beta
        = ((iterSorted g cfg obj t s).getD 1 (0, [])).2 ∧
      (stepIter g cfg obj t s).betaFit
        = ((iterSorted g cfg obj t s).getD 1 (0, [])).1 ∧
      (stepIter g cfg obj t s).delta
        = ((iterSorted g cfg obj t s).getD 2 (0, [])).2 ∧
      (stepIter g cfg obj t s).deltaFit
        = ((iterSorted g cfg obj t s).getD 2 (0, [])).1 := by
  constructor
  · exact (runFrom_histInv g cfg obj c cfg.maxIter 1 (initState g cfg obj)
      (initState_histInv g cfg obj)).1
  · intro t s
    exact ⟨rfl, rfl, rfl, rfl, rfl⟩

theorem runFrom_cancelled_now (g : ℕ → ℚ) (cfg : GWOConfig)
    (obj : List ℚ → ℚ) (c : ℕ → Bool) (rem t : ℕ) (s : GWOState)
    (h : c t = true) : runFrom g cfg obj c rem t s = s := by
  cases rem with
  | zero => rfl
  | succ rem => rw [runFrom]; simp [h]

theorem runFrom_split (g : ℕ → ℚ) (cfg : GWOConfig) (obj : List ℚ → ℚ)
    (c : ℕ → Bool) :
    ∀ (k t0 rem : ℕ) (s : GWOState),
      (∀ u, t0 ≤ u → u < t0 + k → c u = false) → c (t0 + k) = true →
      k ≤ rem →
      runFrom g cfg obj c rem t0 s = runNoCancel g cfg obj k t0 s := by
  intro k
  induction k with
  | zero =>
      intro t0 rem s _ h2 _
      rw [runNoCancel]
      exact runFrom_cancelled_now g cfg obj c rem t0 s (by simpa using h2)
  | succ k ih =>
      intro t0 rem s h1 h2 hk
      cases rem with
      | zero => omega
      | succ rem =>
          have hc : c t0 = false := h1 t0 le_rfl (by omega)
          rw [runFrom, if_neg (by simp [hc]), runNoCancel]
          apply ih (t0 + 1) rem (stepIter g cfg obj t0 s)
          · intro u hu1 hu2
            exact h1 u (by omega) (by omega)
          · have harith : t0 + 1 + k = t0 + (k + 1) := by omega
            rw [harith]
            exact h2
          · omega

theorem runNoCancel_history_fst (g : ℕ → ℚ) (cfg : GWOConfig)
    (obj : List ℚ → ℚ) :
    ∀ (k t : ℕ) (s : GWOState),
      (runNoCancel g cfg obj k t s).history.map Prod.fst
        = s.history.map Prod.fst ++ List.range' t k := by
  intro k
  induction k with
  | zero => intro t s; simp [runNoCancel]
  | succ k ih =>
      intro t s
      rw [runNoCancel, ih, stepIter_history, List.map_append,
        List.range'_succ]
      simp

/-- C5: cancellation is observed only at the top of an iteration.  If the
flag reads false at the tops of iterations 1..t and true at the top of
iteration t+1 (it was raised during iteration t), the run equals t full
uncancelled iterations: the history records exactly iterations 0..t, so
iteration t finished and iteration t+1 never started; and a runner that sees
the flag set marks the job Cancelled and saves no result (with t = 0 this is
cancellation before the first iteration). -/
theorem optimize_cancellation (g : ℕ → ℚ) (cfg : GWOConfig)
    (obj : List ℚ → ℚ) (c : ℕ → Bool) (t : ℕ) (st : JMState) (j res : ℕ)
    (h1 : ((List.range' 1 t).all (fun u => !(c u))) = true)
    (h2 : c (t + 1) = true) (h3 : t + 1 ≤ cfg.maxIter) :
    optimize g cfg obj c = runNoCancel g cfg obj t 1 (initState g cfg obj) ∧
    (optimize g cfg obj c).history.map Prod.fst = List.range (t + 1) ∧
    runnerRun st j true res
      = (registryRemove
          (updateStatus (updateStatus st j JobStatus.running) j
            JobStatus.cancelled) j, none) ∧
    (runnerRun st j true res).1.results = st.results := by
  have h1' : ∀ u, 1 ≤ u → u < 1 + t → c u = false := by
    intro u hu1 hu2
    have hmem : u ∈ List.range' 1 t := List.mem_range'_1.mpr ⟨hu1, hu2⟩
    have := List.all_eq_true.mp h1 u hmem
    simpa using this
  have hsplit : optimize g cfg obj c
      = runNoCancel g cfg obj t 1 (initState g cfg obj) := by
    unfold optimize
    apply runFrom_split g cfg obj c t 1 cfg.maxIter _ h1'
    · have harith : 1 + t = t + 1 := by omega
      rw [harith]
      exact h2
    · omega
  refine ⟨hsplit, ?_, ?_, ?_⟩
  · rw [hsplit, runNoCancel_history_fst]
    have hinit : (initState g cfg obj).history.map Prod.fst = [0] := rfl
    rw [hinit, List.range_eq_range', List.range'_succ]
    rfl
  · simp [runnerRun, runnerFinish]
  · simp [runnerRun, runnerFinish, registryRemove, updateStatus]

/-- Witness for C5: the flag is raised during iteration 1 of a three
iteration run; iteration 1 completes and iteration 2 never starts. -/
theorem optimize_cancellation_witness :
    ((List.range' 1 1).all (fun u => !(cancelAt2 u))) = true ∧
    cancelAt2 (1 + 1) = true ∧ 1 + 1 ≤ cfgSmall.maxIter ∧
    (optimize gZero cfgSmall objZero cancelAt2).history.map Prod.fst
      = List.range (1 + 1) :=
  ⟨by decide, by decide, by decide,
   (optimize_cancellation gZero cfgSmall objZero cancelAt2 1
      (JMState.mk [] [] [] []) 0 0 (by decide) (by decide) (by decide)).2.1⟩

theorem optimizeChecked_eq (g : ℕ → ℚ) (cfg : GWOConfig)
    (obj : List ℚ → ℚ) (c : ℕ → Bool) :
    optimizeChecked g cfg obj c
      = if cfg.pop = 0 then
          Except.error
            ("cannot apply_along_axis when any iteration dimensions are 0")
        else if 3 ≤ cfg.pop then Except.ok (optimize g cfg obj c)
        else Except.error ("index out of bounds") := by
  have hplen : (initPopulation g cfg).length = cfg.pop := by
    simp [initPopulation]
  have hlen : (sortByFitness ((initPopulation g cfg).map
      (fun r => (obj r, r)))).length = cfg.pop := by
    simp only [sortByFitness, List.length_insertionSort, List.length_map]
    exact hplen
  unfold optimizeChecked
  by_cases hp : cfg.pop = 0
  · have hnil : initPopulation g cfg = [] :=
      List.length_eq_zero.mp (by rw [hplen, hp])
    rw [if_pos hp]
    simp [hnil]
  · rw [if_neg hp]
    have hne : (initPopulation g cfg).isEmpty = false := by
      cases hI : initPopulation g cfg with
      | nil =>
          rw [hI] at hplen
          simp at hplen
          omega
      | cons a l => rfl
    rw [hne, if_neg Bool.false_ne_true]
    rcases hs : sortByFitness ((initPopulation g cfg).map
        (fun r => (obj r, r)))
      with _ | ⟨p0, _ | ⟨p1, _ | ⟨p2, rest⟩⟩⟩ <;> rw [hs] at hlen <;>
      simp at hlen
    · omega
    · rw [if_neg (by omega)]
    · rw [if_neg (by omega)]
    · rw [if_pos (by omega)]

/-- C10 counterexample: with an empty population the call fails before the
leader indexing is reached, with the ValueError raised by the
population-wide fitness evaluation (apply_along_axis), not with an
out-of-bounds index error, although the population is below three. -/
theorem optimizeChecked_empty_pop_not_index_error :
    cfgEmpty.pop < 3 ∧
    optimizeChecked gZero cfgEmpty objZero (fun _ => false)
      = Except.error
          ("cannot apply_along_axis when any iteration dimensions are 0") ∧
    ("cannot apply_along_axis when any iteration dimensions are 0" : String)
      ≠ ("index out of bounds") :=
  ⟨by decide, rfl, by decide⟩

/-- C10 amended: optimize has the unstated precondition population at least
3: runs with population at least 3 have the leader accesses in bounds and
succeed; populations 1 and 2 fail with an out-of-bounds index error at the
leader initialization; population 0 fails even earlier, with the ValueError
raised by the population-wide fitness evaluation — in every case below 3 the
call fails before any iteration runs; and the API configuration bound
(numWolves between 5 and 200) independently guarantees the precondition. -/
theorem optimize_population_precondition_amended (g : ℕ → ℚ)
    (cfg : GWOConfig) (obj : List ℚ → ℚ) (c : ℕ → Bool) :
    (3 ≤ cfg.pop ↔ (optimizeChecked g cfg obj c).isOk = true) ∧
    ((cfg.pop = 1 ∨ cfg.pop = 2) →
      optimizeChecked g cfg obj c = Except.error ("index out of bounds")) ∧
    (cfg.pop = 0 →
      optimizeChecked g cfg obj c
        = Except.error
            ("cannot apply_along_axis when any iteration dimensions are 0")) ∧
    (∀ w, numWolvesValid w → 5 ≤ w) ∧
    (numWolvesValid cfg.pop → (optimizeChecked g cfg obj c).isOk = true) := by
  rw [optimizeChecked_eq]
  refine ⟨?_, ?_, ?_, ?_, ?_⟩
  · constructor
    · intro h
      rw [if_neg (by omega), if_pos h]
      rfl
    · intro h
      by_contra hlt
      by_cases hz : cfg.pop = 0
      · rw [if_pos hz] at h
        simp [Except.isOk, Except.toBool] at h
      · rw [if_neg hz, if_neg hlt] at h
        simp [Except.isOk, Except.toBool] at h
  · intro h12
    rw [if_neg (by omega), if_neg (by omega)]
  · intro h0
    rw [if_pos h0]
  · intro w hw
    exact hw.1
  · intro hw
    have h5 := hw.1
    rw [if_neg (by omega), if_pos (by omega)]
    rfl

/-- Witness for C10 (amended) at a two-wolf configuration. -/
theorem optimize_population_precondition_amended_witness :
    (cfgTiny.pop = 1 ∨ cfgTiny.pop = 2) ∧
    optimizeChecked gZero cfgTiny objZero (fun _ => false)
      = Except.error ("index out of bounds") :=
  ⟨by decide,
   (optimize_population_precondition_amended gZero cfgTiny objZero
      (fun _ => false)).2.1 (by decide)⟩

/-- C7: starting a job whose persisted status is not Pending raises an
invalid-state error that carries the current status, leaves the state (the
job record and the active-job registry) unchanged, and submits no worker. -/
theorem start_job_not_pending (st : JMState) (j : ℕ) (job : JobRec)
    (hj : lookupA st.jobs j = some job)
    (hs : job.status ≠ JobStatus.pending) :
    start_job st j
      = (st, Except.error (JMError.jobNotPending j job.status), false) := by
  unfold start_job
  rw [hj]
  simp [hs]

/-- Witness for C7: starting an already Running job. -/
theorem start_job_not_pending_witness :
    lookupA stRunning.jobs 1
      = some (JobRec.mk 0 JobStatus.running) ∧
    start_job stRunning 1
      = (stRunning,
         Except.error (JMError.jobNotPending 1 JobStatus.running), false) :=
  ⟨by decide,
   start_job_not_pending stRunning 1 (JobRec.mk 0 JobStatus.running)
     (by decide) (by decide)⟩

/-- C8: cancel_job succeeds exactly when the job is in the active registry
(then only the registered runner's cancellation flag is set) or its persisted
status is Pending or Running (then the status is set directly to Cancelled);
for a Completed or Failed job absent from the registry it fails and changes
no state. -/
theorem cancel_job_spec (st : JMState) (j : ℕ) :
    ((cancel_job st j).1 = true ↔
      (lookupA st.registry j).isSome = true ∨
      ∃ job, lookupA st.jobs j = some job ∧
        (job.status = JobStatus.pending ∨
          job.status = JobStatus.running)) ∧
    ((lookupA st.registry j).isSome = true →
      cancel_job st j = (true, registryCancel st j)) ∧
    (∀ job, lookupA st.registry j = none → lookupA st.jobs j = some job →
      (job.status = JobStatus.pending ∨ job.status = JobStatus.running) →
      cancel_job st j = (true, updateStatus st j JobStatus.cancelled)) ∧
    (∀ job, lookupA st.registry j = none → lookupA st.jobs j = some job →
      (job.status = JobStatus.completed ∨ job.status = JobStatus.failed) →
      cancel_job st j = (false, st)) := by
  refine ⟨?_, ?_, ?_, ?_⟩
  · cases hreg : lookupA st.registry j with
    | some fl => simp [cancel_job, hreg]
    | none =>
        cases hjob : lookupA st.jobs j with
        | none => simp [cancel_job, hreg, hjob]
        | some job =>
            by_cases hp : job.status = JobStatus.pending ∨
              job.status = JobStatus.running
            · simp [cancel_job, hreg, hjob, hp]
            · simp [cancel_job, hreg, hjob, hp]
  · intro hreg
    obtain ⟨fl, hfl⟩ := Option.isSome_iff_exists.mp hreg
    simp [cancel_job, hfl]
  · intro job hreg hjob hp
    simp [cancel_job, hreg, hjob, hp]
  · intro job hreg hjob ht
    have hp : ¬ (job.status = JobStatus.pending ∨
        job.status = JobStatus.running) := by
      rcases ht with ht | ht <;> rw [ht] <;> simp
    simp [cancel_job, hreg, hjob, hp]

/-- Witness for C8: cancelling a job held in the active registry. -/
theorem cancel_job_spec_witness :
    (lookupA stActive.registry 3).isSome = true ∧
    cancel_job stActive 3 = (true, registryCancel stActive 3) :=
  ⟨by decide, (cancel_job_spec stActive 3).2.1 (by decide)⟩

/-- C9 counterexample: run_job_sync re-executes the optimizer for a job
whose persisted status is Failed (its terminal-result guard only covers
Completed jobs with a stored result), so a terminal job can be run again. -/
theorem run_job_sync_reruns_failed :
    (run_job_sync stFailed 5 false 99).2.2 = true := by decide

/-- C9 amended: a job with a terminal status is never re-executed through
start_job (which submits no worker and leaves the state unchanged), and
run_job_sync does not re-execute a Completed job that has a stored result
(it returns that result); however run_job_sync does re-execute a job whose
status is Failed or Cancelled. -/
theorem terminal_no_rerun_amended (st : JMState) (j : ℕ) (job : JobRec)
    (c : Bool) (res r : ℕ)
    (hj : lookupA st.jobs j = some job)
    (ht : job.status ≠ JobStatus.pending) :
    (start_job st j).2.2 = false ∧
    (start_job st j).1 = st ∧
    (job.status = JobStatus.completed → lookupA st.results j = some r →
      run_job_sync st j c res = (st, Except.ok r, false)) ∧
    ((job.status = JobStatus.failed ∨ job.status = JobStatus.cancelled) →
      job.datasetId ∈ st.datasets →
      (run_job_sync st j c res).2.2 = true) := by
  refine ⟨?_, ?_, ?_, ?_⟩
  · unfold start_job
    rw [hj]
    simp [ht]
  · unfold start_job
    rw [hj]
    simp [ht]
  · intro hc hr
    unfold run_job_sync
    rw [hj]
    simp [hc, hr]
  · intro hfc hds
    have hnc : job.status ≠ JobStatus.completed := by
      rcases hfc with h | h <;> rw [h] <;> simp
    unfold run_job_sync
    rw [hj]
    simp only [hnc, if_false]
    show (runBody st j job c res).2.2 = true
    unfold runBody
    rw [if_pos hds]
    rcases runnerRun (registryInsert st j) j c res with ⟨st2, orr⟩
    cases orr <;> rfl

/-- Witness for C9 (amended): a Completed job with a stored result is not
re-executed; run_job_sync returns the stored result. -/
theorem terminal_no_rerun_amended_witness :
    lookupA stCompleted.jobs 7 = some (JobRec.mk 0 JobStatus.completed) ∧
    (JobRec.mk 0 JobStatus.completed).status ≠ JobStatus.pending ∧
    lookupA stCompleted.results 7 = some 42 ∧
    run_job_sync stCompleted 7 false 0 = (stCompleted, Except.ok 42, false) :=
  ⟨by decide, by decide, by decide,
   (terminal_no_rerun_amended stCompleted 7 (JobRec.mk 0 JobStatus.completed)
      false 0 42 (by decide) (by decide)).2.2.1 (by decide) (by decide)⟩

end GWOVRP
